import Mathlib

/-!
Verification of the live-configuration reloader (`internal/reloader`) and the
serve command's graceful-shutdown path (`cmd/serve_cmd.go`).

The Go code is shallowly embedded:
* Go strings are modelled as `List Char`; `time.Time` and `time.Duration`
  are modelled as `Int` nanoseconds, with `0` playing the role of the zero
  `time.Time` (`IsZero`).
* The `Reloader.Watch` select loop is modelled as a step function
  `Reloader.watchStep` on its single piece of loop state (`lastUpdate`),
  driven by an input per select-arm firing; whole runs are folds of the step
  over an input list, stopping at the first step that returns.
* External collaborators (`os.ReadDir` contents, `conf.LoadGlobalFiles`,
  `http.Server.Shutdown`) are parameters supplied per call.
-/

/-- Go strings, modelled as their character sequences. -/
abbrev GoStr := List Char

/-- Models `strings.HasSuffix s suffix`. -/
def stringsHasSuffix (s suffix : GoStr) : Bool :=
  suffix.isSuffixOf s

/-- The recognized configuration-file suffix `".env"`. -/
def envSuffix : GoStr := ['.', 'e', 'n', 'v']

/-- Models `filepath.Join dir name` for a clean directory path and a bare
file name: `dir ++ "/" ++ name`. -/
def filepathJoin (dir name : GoStr) : GoStr :=
  dir ++ '/' :: name

/-- One nanosecond, the unit of `time.Duration`. -/
def timeNanosecond : Int := 1

/-- `time.Second` in nanoseconds. -/
def timeSecond : Int := 1000000000

/-- `time.Minute` in nanoseconds. -/
def timeMinute : Int := 60 * timeSecond

/-- `reloadInterval = time.Second * 10`: the interval between configuration
reloading. At most one configuration change may be made between this
duration. -/
def reloadInterval : Int := timeSecond * 10

/-- `tickerInterval = reloadInterval / 10`: the maximum latency between
configuration reloads. -/
def tickerInterval : Int := reloadInterval / 10

/-- Go `error` values that this core distinguishes.  `context.Canceled` is
the one error compared against with `errors.Is`; every other error is
opaque and carried as a code. -/
inductive GoError where
  | canceled
  | deadlineExceeded
  | ioError (code : Nat)
  deriving DecidableEq

/-- Models `errors.Is e target` for the errors of this development (all of
which are leaf sentinel errors, so `errors.Is` is equality). -/
def errorsIs (e target : GoError) : Bool :=
  decide (e = target)

/-- The opaque configuration value produced by `conf.LoadGlobalFiles`.  The
reloader never inspects it, only hands it to the callback. -/
structure GlobalConfiguration where
  confId : Nat
  deriving DecidableEq

/-- A directory entry as returned by `os.ReadDir`: a name and whether the
entry is a subdirectory. -/
structure DirEntry where
  name : GoStr
  isDir : Bool
  deriving DecidableEq

/-- The `Reloader` struct: watch directory, reload interval, ticker
interval. -/
structure Reloader where
  watchDir : GoStr
  reloadIval : Int
  tickerIval : Int

/-- `NewReloader watchDir` constructs a `Reloader` with the package's fixed
intervals. -/
def NewReloader (watchDir : GoStr) : Reloader :=
  { watchDir := watchDir, reloadIval := reloadInterval, tickerIval := tickerInterval }

/-- Models `os.ReadDir` applied to the watch directory whose raw (unordered)
contents are `dir`: returns the entries sorted by filename, or the I/O
error. -/
def osReadDir (dir : Except GoError (List DirEntry)) : Except GoError (List DirEntry) :=
  match dir with
  | .error e => .error e
  | .ok ents => .ok (List.insertionSort (fun a b : DirEntry => a.name ≤ b.name) ents)

/-- The path-collection loop of `Reloader.reloadConfig`: skip directories,
skip names without the `.env` suffix, join the rest onto the watch dir. -/
def collectPaths (watchDir : GoStr) : List DirEntry → List GoStr
  | [] => []
  | ent :: rest =>
    if ent.isDir then
      collectPaths watchDir rest
    else if !stringsHasSuffix ent.name envSuffix then
      collectPaths watchDir rest
    else
      filepathJoin watchDir ent.name :: collectPaths watchDir rest

/-- `Reloader.reloadConfig`: read the watch directory (entries sorted by
filename), collect the qualifying paths, and call `conf.LoadGlobalFiles`
(the `loader` parameter) on them.  `dir` is the raw directory content (or
read error) supplied by the filesystem at this call. -/
def Reloader.reloadConfig (rl : Reloader) (dir : Except GoError (List DirEntry))
    (loader : List GoStr → Except GoError GlobalConfiguration) :
    Except GoError GlobalConfiguration :=
  match osReadDir dir with
  | .error e => .error e
  | .ok ents => loader (collectPaths rl.watchDir ents)

/-- `Reloader.reloadCheckAt t lastUpdate`: true iff a reload should happen
at time `t`.  Mirrors the source: false when `lastUpdate.IsZero()`, false
while `t - lastUpdate < reloadIval`, true otherwise. -/
def Reloader.reloadCheckAt (rl : Reloader) (t lastUpdate : Int) : Bool :=
  if lastUpdate = 0 then
    false -- no pending updates
  else if t - lastUpdate < rl.reloadIval then
    false -- waiting for reload interval
  else
    true -- update is pending

/-- fsnotify operation bits, as in the fsnotify package. -/
def fsnotifyCreate : Nat := 1

/-- fsnotify `Write` bit. -/
def fsnotifyWrite : Nat := 2

/-- fsnotify `Remove` bit. -/
def fsnotifyRemove : Nat := 4

/-- fsnotify `Rename` bit. -/
def fsnotifyRename : Nat := 8

/-- fsnotify `Chmod` bit. -/
def fsnotifyChmod : Nat := 16

/-- Models `Op.Has flag`: the bitmask test `op & flag != 0`. -/
def opHas (op flag : Nat) : Bool :=
  op.land flag != 0

/-- An fsnotify event: the file name (full path) and the operation mask. -/
structure FsnotifyEvent where
  name : GoStr
  op : Nat
  deriving DecidableEq

/-- One firing of the `select` in `Reloader.Watch`: which arm fired and the
data the environment supplies at that moment.  A `tick` carries the current
time together with the directory contents and loader behaviour the
filesystem would provide if a reload fires now. -/
inductive WatchInput where
  | ctxDone (ctxErr : GoError)
  | tick (now : Int) (dir : Except GoError (List DirEntry))
      (loader : List GoStr → Except GoError GlobalConfiguration)
  | fsEvent (evt : FsnotifyEvent) (now : Int)
  | fsEventsClosed
  | fsError (e : GoError)
  | fsErrorsClosed

/-- The observable outcome of one iteration of the `Watch` loop body. -/
structure StepResult where
  /-- The value of the `lastUpdate` variable after the iteration. -/
  lastUpdate : Int
  /-- Whether this iteration started a reload attempt (called `reloadConfig`). -/
  reloadAttempted : Bool
  /-- The configuration passed to the callback `fn`, when it was called. -/
  callbackCfg : Option GlobalConfiguration
  /-- `some r` when the iteration makes `Watch` return with result `r`
  (`none` at position `r` standing for Go's `nil` error); `none` when the
  loop continues. -/
  returned : Option (Option GoError)

/-- One iteration of the `Reloader.Watch` select loop, from loop state
`lastUpdate`, on the given input.  Mirrors the source arm by arm:
* `ctx.Done()`: return `ctx.Err()` (non-nil once done);
* ticker: re-add the watch dir (log only), check `reloadCheckAt`; if due,
  reset `lastUpdate` to the zero time *before* calling `reloadConfig`, and
  call `fn cfg` only on success (on error: log and continue);
* watcher event: if the name lacks the `.env` suffix, ignore; else on a
  Create/Remove/Rename/Write op set `lastUpdate = now`;
* watcher events channel closed: return nil;
* watcher error: log and continue; error channel closed: return nil. -/
def Reloader.watchStep (rl : Reloader) (lastUpdate : Int) : WatchInput → StepResult
  | .ctxDone ctxErr =>
    { lastUpdate := lastUpdate, reloadAttempted := false, callbackCfg := none,
      returned := some (some ctxErr) }
  | .tick now dir loader =>
    if rl.reloadCheckAt now lastUpdate then
      -- lastUpdate is reset to the zero time before reloadConfig is tried,
      -- so its value is 0 afterwards whether or not the reload succeeded.
      { lastUpdate := 0, reloadAttempted := true,
        callbackCfg := (rl.reloadConfig dir loader).toOption, returned := none }
    else
      { lastUpdate := lastUpdate, reloadAttempted := false, callbackCfg := none,
        returned := none }
  | .fsEvent evt now =>
    if !stringsHasSuffix evt.name envSuffix then
      { lastUpdate := lastUpdate, reloadAttempted := false, callbackCfg := none,
        returned := none }
    else if opHas evt.op fsnotifyCreate || opHas evt.op fsnotifyRemove ||
        opHas evt.op fsnotifyRename || opHas evt.op fsnotifyWrite then
      { lastUpdate := now, reloadAttempted := false, callbackCfg := none,
        returned := none }
    else
      { lastUpdate := lastUpdate, reloadAttempted := false, callbackCfg := none,
        returned := none }
  | .fsEventsClosed =>
    { lastUpdate := lastUpdate, reloadAttempted := false, callbackCfg := none,
      returned := some none }
  | .fsError _ =>
    { lastUpdate := lastUpdate, reloadAttempted := false, callbackCfg := none,
      returned := none }
  | .fsErrorsClosed =>
    { lastUpdate := lastUpdate, reloadAttempted := false, callbackCfg := none,
      returned := some none }

/-- The times (the `now` of the triggering tick) of the reload attempts a
run of the `Watch` loop makes, starting from loop state `lu`, processing
the inputs in order and stopping at the first input that makes `Watch`
return. -/
def Reloader.attemptTimes (rl : Reloader) (lu : Int) : List WatchInput → List Int
  | [] => []
  | i :: rest =>
    let r := rl.watchStep lu i
    let here : List Int :=
      match i with
      | .tick now _ _ => if r.reloadAttempted then [now] else []
      | _ => []
    match r.returned with
    | some _ => here
    | none => here ++ rl.attemptTimes r.lastUpdate rest

/-- The wall-clock time at which an input fires, for the inputs that carry
one. -/
def WatchInput.time : WatchInput → Option Int
  | .tick now _ _ => some now
  | .fsEvent _ now => some now
  | _ => none

/-- All timed inputs in the list fire no earlier than `t`. -/
def timesLB (t : Int) (inputs : List WatchInput) : Prop :=
  ∀ i ∈ inputs, ∀ u, i.time = some u → t ≤ u

/-- The timed inputs of the list fire in nondecreasing wall-clock order
(the real select loop observes a monotone clock). -/
def timesMono (inputs : List WatchInput) : Prop :=
  List.Pairwise
    (fun i j => ∀ u v, WatchInput.time i = some u → WatchInput.time j = some v → u ≤ v)
    inputs

/-!
The serve command (`cmd/serve_cmd.go`).  `serve` builds an `http.Server`,
spawns a shutdown-coordinator goroutine, and blocks in `ListenAndServe`;
a deferred `wg.Wait()` keeps `serve` from returning until the coordinator
goroutine has run to completion.
-/

/-- The graceful-shutdown bound passed to `context.WithTimeout` in the
shutdown coordinator: `time.Minute`. -/
def serveShutdownTimeout : Int := timeMinute

/-- What the shutdown-coordinator goroutine observably does after
`ctx.Done()` fires. -/
structure ShutdownOutcome where
  /-- Whether the `"shutdown failed"` error log line is emitted. -/
  loggedShutdownError : Bool
  /-- Whether `baseCancel` is invoked (deferred, always runs). -/
  baseCancelInvoked : Bool
  /-- Whether the goroutine body runs to completion. -/
  completed : Bool

/-- The tail of the shutdown-coordinator goroutine, as a function of the
result of `httpSrv.Shutdown(shutdownCtx)` (supplied by the HTTP server):
the error is logged only when it is non-nil and is not `context.Canceled`;
in every case the goroutine proceeds to completion and its deferred
`baseCancel` runs. -/
def shutdownGoroutine (shutdownErr : Option GoError) : ShutdownOutcome :=
  { loggedShutdownError :=
      match shutdownErr with
      | some e => !errorsIs e GoError.canceled
      | none => false,
    baseCancelInvoked := true,
    completed := true }

/-- The ordered events of `serve`'s two concurrent tasks after cancellation,
for the happens-before analysis of the `wg.Wait` join. -/
inductive ServeEvent where
  | ctxDoneObserved
  | shutdownReturned
  | shutdownCancelInvoked
  | baseCancelInvoked
  | wgDoneInvoked
  | wgWaitReturned
  | serveReturned
  deriving DecidableEq

/-- The shutdown-coordinator goroutine's own event order: it observes
`ctx.Done()`, runs the bounded `httpSrv.Shutdown`, then its deferred calls
run LIFO (`shutdownCancel`, then `baseCancel`, then `wg.Done`). -/
def shutdownGoroutineTrace : List ServeEvent :=
  [.ctxDoneObserved, .shutdownReturned, .shutdownCancelInvoked,
   .baseCancelInvoked, .wgDoneInvoked]

/-- The main task's event order after `ListenAndServe` returns
`http.ErrServerClosed`: the deferred `wg.Wait()` returns, then `serve`
returns to its caller. -/
def serveMainTailTrace : List ServeEvent :=
  [.wgWaitReturned, .serveReturned]

/-- A possible execution of `serve`'s two concurrent tasks after
cancellation: a trace is valid when it consists of exactly the events of
both tasks (a permutation of their union), and each task's own event order
is preserved (each task's trace is a subsequence). -/
def serveTraceValid (tr : List ServeEvent) : Prop :=
  tr.Perm (shutdownGoroutineTrace ++ serveMainTailTrace) ∧
    shutdownGoroutineTrace.Sublist tr ∧ serveMainTailTrace.Sublist tr

/-- The synchronisation `sync.WaitGroup` provides: `wg.Wait()` returns only
after the goroutine's `wg.Done()` has run. -/
def wgWaitSync (tr : List ServeEvent) : Prop :=
  tr.indexOf ServeEvent.wgDoneInvoked < tr.indexOf ServeEvent.wgWaitReturned

/-!
Concrete sample data used by the witness theorems.
-/

/-- A sample watch directory path, `"conf"`. -/
def sampleDir : GoStr := ['c', 'o', 'n', 'f']

/-- A reloader over the sample directory, with the package's intervals. -/
def sampleRl : Reloader := NewReloader sampleDir

/-- A sample qualifying file name, `"a.env"`. -/
def sampleEnvName : GoStr := ['a', '.', 'e', 'n', 'v']

/-- A second qualifying file name, `"b.env"`. -/
def sampleEnvNameB : GoStr := ['b', '.', 'e', 'n', 'v']

/-- A loader that always succeeds, tagging the configuration with the
number of paths it was given. -/
def sampleLoader : List GoStr → Except GoError GlobalConfiguration :=
  fun ps => .ok ⟨ps.length⟩

/-- A loader that always fails. -/
def sampleFailLoader : List GoStr → Except GoError GlobalConfiguration :=
  fun _ => .error (.ioError 7)

/-- A sample write event on the qualifying file. -/
def sampleWriteEvt : FsnotifyEvent := ⟨sampleEnvName, fsnotifyWrite⟩

/-- A sample directory entry for the qualifying file. -/
def sampleEnt : DirEntry := ⟨sampleEnvName, false⟩

/-- A sample input sequence: a change at 5s, a due tick at 20s, another
change at 21s, a not-yet-due tick at 25s, a due tick at 32s. -/
def sampleInputs : List WatchInput :=
  [ .fsEvent sampleWriteEvt (5 * timeSecond),
    .tick (20 * timeSecond) (.ok [sampleEnt]) sampleLoader,
    .fsEvent sampleWriteEvt (21 * timeSecond),
    .tick (25 * timeSecond) (.ok [sampleEnt]) sampleLoader,
    .tick (32 * timeSecond) (.ok [sampleEnt]) sampleLoader ]

/-- The fully sequential execution of the two `serve` tasks. -/
def sampleServeTrace : List ServeEvent :=
  shutdownGoroutineTrace ++ serveMainTailTrace

/-!
Helper lemmas.
-/

theorem reloadCheckAt_iff (rl : Reloader) (t lu : Int) :
    rl.reloadCheckAt t lu = true ↔ lu ≠ 0 ∧ rl.reloadIval ≤ t - lu := by
  unfold Reloader.reloadCheckAt
  by_cases h0 : lu = 0
  · simp [h0]
  · by_cases h1 : t - lu < rl.reloadIval
    · simp [h0, h1]
    · simp [h0, h1]
      omega

theorem watchStep_tick_returned (rl : Reloader) (lu now : Int)
    (dir : Except GoError (List DirEntry))
    (loader : List GoStr → Except GoError GlobalConfiguration) :
    (rl.watchStep lu (.tick now dir loader)).returned = none := by
  by_cases h : rl.reloadCheckAt now lu <;> simp [Reloader.watchStep, h]

theorem watchStep_tick_attempted (rl : Reloader) (lu now : Int)
    (dir : Except GoError (List DirEntry))
    (loader : List GoStr → Except GoError GlobalConfiguration) :
    (rl.watchStep lu (.tick now dir loader)).reloadAttempted = rl.reloadCheckAt now lu := by
  by_cases h : rl.reloadCheckAt now lu <;> simp [Reloader.watchStep, h]

theorem watchStep_tick_lastUpdate (rl : Reloader) (lu now : Int)
    (dir : Except GoError (List DirEntry))
    (loader : List GoStr → Except GoError GlobalConfiguration) :
    (rl.watchStep lu (.tick now dir loader)).lastUpdate =
      if rl.reloadCheckAt now lu then 0 else lu := by
  by_cases h : rl.reloadCheckAt now lu <;> simp [Reloader.watchStep, h]

theorem watchStep_tick_callbackCfg (rl : Reloader) (lu now : Int)
    (dir : Except GoError (List DirEntry))
    (loader : List GoStr → Except GoError GlobalConfiguration) :
    (rl.watchStep lu (.tick now dir loader)).callbackCfg =
      if rl.reloadCheckAt now lu then (rl.reloadConfig dir loader).toOption else none := by
  by_cases h : rl.reloadCheckAt now lu <;> simp [Reloader.watchStep, h]

theorem watchStep_fsEvent_returned (rl : Reloader) (lu : Int) (evt : FsnotifyEvent)
    (now : Int) :
    (rl.watchStep lu (.fsEvent evt now)).returned = none := by
  simp only [Reloader.watchStep]
  split
  · rfl
  · split <;> rfl

theorem watchStep_fsEvent_attempted (rl : Reloader) (lu : Int) (evt : FsnotifyEvent)
    (now : Int) :
    (rl.watchStep lu (.fsEvent evt now)).reloadAttempted = false := by
  simp only [Reloader.watchStep]
  split
  · rfl
  · split <;> rfl

theorem watchStep_fsEvent_callbackCfg (rl : Reloader) (lu : Int) (evt : FsnotifyEvent)
    (now : Int) :
    (rl.watchStep lu (.fsEvent evt now)).callbackCfg = none := by
  simp only [Reloader.watchStep]
  split
  · rfl
  · split <;> rfl

theorem watchStep_fsEvent_lastUpdate (rl : Reloader) (lu : Int) (evt : FsnotifyEvent)
    (now : Int) :
    (rl.watchStep lu (.fsEvent evt now)).lastUpdate =
      if stringsHasSuffix evt.name envSuffix &&
          (opHas evt.op fsnotifyCreate || opHas evt.op fsnotifyRemove ||
            opHas evt.op fsnotifyRename || opHas evt.op fsnotifyWrite) then
        now
      else lu := by
  simp only [Reloader.watchStep]
  by_cases hs : stringsHasSuffix evt.name envSuffix
  · by_cases ho : (opHas evt.op fsnotifyCreate || opHas evt.op fsnotifyRemove ||
        opHas evt.op fsnotifyRename || opHas evt.op fsnotifyWrite) = true
    · simp [hs, ho]
    · simp [hs, ho]
  · simp [hs]

theorem attemptTimes_nil (rl : Reloader) (lu : Int) : rl.attemptTimes lu [] = [] := rfl

theorem attemptTimes_cons_ctxDone (rl : Reloader) (lu : Int) (e : GoError)
    (rest : List WatchInput) :
    rl.attemptTimes lu (.ctxDone e :: rest) = [] := rfl

theorem attemptTimes_cons_eventsClosed (rl : Reloader) (lu : Int)
    (rest : List WatchInput) :
    rl.attemptTimes lu (.fsEventsClosed :: rest) = [] := rfl

theorem attemptTimes_cons_errorsClosed (rl : Reloader) (lu : Int)
    (rest : List WatchInput) :
    rl.attemptTimes lu (.fsErrorsClosed :: rest) = [] := rfl

theorem attemptTimes_cons_fsError (rl : Reloader) (lu : Int) (e : GoError)
    (rest : List WatchInput) :
    rl.attemptTimes lu (.fsError e :: rest) = rl.attemptTimes lu rest := rfl

theorem attemptTimes_cons_fsEvent (rl : Reloader) (lu : Int) (evt : FsnotifyEvent)
    (now : Int) (rest : List WatchInput) :
    rl.attemptTimes lu (.fsEvent evt now :: rest) =
      rl.attemptTimes ((rl.watchStep lu (.fsEvent evt now)).lastUpdate) rest := by
  simp only [Reloader.attemptTimes, watchStep_fsEvent_returned, watchStep_fsEvent_attempted,
    List.nil_append]

theorem attemptTimes_cons_tick (rl : Reloader) (lu now : Int)
    (dir : Except GoError (List DirEntry))
    (loader : List GoStr → Except GoError GlobalConfiguration)
    (rest : List WatchInput) :
    rl.attemptTimes lu (.tick now dir loader :: rest) =
      (if rl.reloadCheckAt now lu then [now] else []) ++
        rl.attemptTimes (if rl.reloadCheckAt now lu then 0 else lu) rest := by
  simp only [Reloader.attemptTimes, watchStep_tick_returned, watchStep_tick_attempted,
    watchStep_tick_lastUpdate]

theorem attemptTimes_lowerBound (rl : Reloader) (t1 : Int) :
    ∀ (inputs : List WatchInput) (lu : Int), (lu = 0 ∨ t1 ≤ lu) → timesLB t1 inputs →
      ∀ t ∈ rl.attemptTimes lu inputs, t1 + rl.reloadIval ≤ t := by
  intro inputs
  induction inputs with
  | nil =>
    intro lu _ _ t ht
    rw [attemptTimes_nil] at ht
    cases ht
  | cons i rest ih =>
    intro lu hlu hlb
    have hlbr : timesLB t1 rest := fun j hj => hlb j (List.mem_cons_of_mem i hj)
    cases i with
    | ctxDone e =>
      intro t ht
      rw [attemptTimes_cons_ctxDone] at ht
      cases ht
    | fsEventsClosed =>
      intro t ht
      rw [attemptTimes_cons_eventsClosed] at ht
      cases ht
    | fsErrorsClosed =>
      intro t ht
      rw [attemptTimes_cons_errorsClosed] at ht
      cases ht
    | fsError e =>
      intro t ht
      rw [attemptTimes_cons_fsError] at ht
      exact ih lu hlu hlbr t ht
    | fsEvent evt now =>
      intro t ht
      rw [attemptTimes_cons_fsEvent, watchStep_fsEvent_lastUpdate] at ht
      by_cases hc : (stringsHasSuffix evt.name envSuffix &&
          (opHas evt.op fsnotifyCreate || opHas evt.op fsnotifyRemove ||
            opHas evt.op fsnotifyRename || opHas evt.op fsnotifyWrite)) = true
      · rw [if_pos hc] at ht
        have hnow : t1 ≤ now := hlb _ (List.mem_cons_self _ _) now rfl
        exact ih now (Or.inr hnow) hlbr t ht
      · rw [if_neg hc] at ht
        exact ih lu hlu hlbr t ht
    | tick now dir loader =>
      intro t ht
      rw [attemptTimes_cons_tick] at ht
      by_cases hc : rl.reloadCheckAt now lu = true
      · rw [if_pos hc, if_pos hc, List.singleton_append] at ht
        obtain ⟨hne, hge⟩ := (reloadCheckAt_iff rl now lu).mp hc
        rcases List.mem_cons.mp ht with rfl | ht2
        · rcases hlu with h0 | hle
          · exact absurd h0 hne
          · omega
        · exact ih 0 (Or.inl rfl) hlbr t ht2
      · rw [if_neg hc, if_neg hc, List.nil_append] at ht
        exact ih lu hlu hlbr t ht

theorem watch_attempts_chain (rl : Reloader) :
    ∀ (inputs : List WatchInput) (lu : Int), timesMono inputs →
      List.Chain' (fun a b => a + rl.reloadIval ≤ b) (rl.attemptTimes lu inputs) := by
  intro inputs
  induction inputs with
  | nil =>
    intro lu _
    rw [attemptTimes_nil]
    exact List.chain'_nil
  | cons i rest ih =>
    intro lu hmono
    have hpc := List.pairwise_cons.mp hmono
    cases i with
    | ctxDone e =>
      rw [attemptTimes_cons_ctxDone]
      exact List.chain'_nil
    | fsEventsClosed =>
      rw [attemptTimes_cons_eventsClosed]
      exact List.chain'_nil
    | fsErrorsClosed =>
      rw [attemptTimes_cons_errorsClosed]
      exact List.chain'_nil
    | fsError e =>
      rw [attemptTimes_cons_fsError]
      exact ih lu hpc.2
    | fsEvent evt now =>
      rw [attemptTimes_cons_fsEvent]
      exact ih _ hpc.2
    | tick now dir loader =>
      rw [attemptTimes_cons_tick]
      by_cases hc : rl.reloadCheckAt now lu = true
      · rw [if_pos hc, if_pos hc, List.singleton_append, List.chain'_cons']
        constructor
        · intro y hy
          have hym : y ∈ rl.attemptTimes 0 rest := List.mem_of_mem_head? hy
          have hlb : timesLB now rest := by
            intro j hj u hju
            exact hpc.1 j hj now u rfl hju
          exact attemptTimes_lowerBound rl now rest 0 (Or.inl rfl) hlb y hym
        · exact ih 0 hpc.2
      · rw [if_neg hc, if_neg hc, List.nil_append]
        exact ih lu hpc.2

theorem chain_sep_le_of_mem (ival : Int) (hnn : 0 ≤ ival) :
    ∀ (l : List Int) (a : Int), List.Chain' (fun x y => x + ival ≤ y) (a :: l) →
      ∀ x ∈ l, a + ival ≤ x := by
  intro l
  induction l with
  | nil =>
    intro a _ x hx
    cases hx
  | cons b l ih =>
    intro a hch x hx
    have h1 := List.chain'_cons.mp hch
    rcases List.mem_cons.mp hx with rfl | hx2
    · exact h1.1
    · have := ih b h1.2 x hx2
      omega

theorem chain_sep_window_count (ival : Int) (hpos : 0 < ival) :
    ∀ (l : List Int), List.Chain' (fun x y => x + ival ≤ y) l →
      ∀ w : Int, l.countP (fun t => decide (w ≤ t ∧ t < w + ival)) ≤ 1 := by
  intro l
  induction l with
  | nil =>
    intro _ w
    simp
  | cons a l ih =>
    intro hch w
    rw [List.countP_cons]
    by_cases ha : w ≤ a ∧ a < w + ival
    · have hz : l.countP (fun t => decide (w ≤ t ∧ t < w + ival)) = 0 := by
        rw [List.countP_eq_zero]
        intro x hx
        have hge := chain_sep_le_of_mem ival (le_of_lt hpos) l a hch x hx
        simp only [decide_eq_true_eq]
        omega
      rw [hz]
      split <;> omega
    · have hfalse : decide (w ≤ a ∧ a < w + ival) = false := by
        simp only [decide_eq_false_iff_not]
        exact ha
      rw [hfalse]
      simpa using ih hch.tail w

theorem timesMono_of_sorted (inputs : List WatchInput)
    (h : List.Chain' (fun a b : Int => a ≤ b) (inputs.filterMap WatchInput.time)) :
    timesMono inputs := by
  have hp : List.Pairwise (fun a b : Int => a ≤ b) (inputs.filterMap WatchInput.time) :=
    List.chain'_iff_pairwise.mp h
  rw [List.pairwise_filterMap] at hp
  refine hp.imp ?_
  intro i j hij u v hu hv
  exact hij u (Option.mem_def.mpr hu) v (Option.mem_def.mpr hv)

instance : IsTotal DirEntry (fun a b => a.name ≤ b.name) :=
  ⟨fun a b => le_total a.name b.name⟩

instance : IsTrans DirEntry (fun a b => a.name ≤ b.name) :=
  ⟨fun _ _ _ hab hbc => le_trans hab hbc⟩

theorem collectPaths_eq (watchDir : GoStr) :
    ∀ ents : List DirEntry,
      collectPaths watchDir ents =
        (ents.filter fun e => !e.isDir && stringsHasSuffix e.name envSuffix).map
          fun e => filepathJoin watchDir e.name := by
  intro ents
  induction ents with
  | nil => rfl
  | cons e rest ih =>
    cases hd : e.isDir with
    | true => simp [collectPaths, hd, List.filter_cons, ih]
    | false =>
      cases hs : stringsHasSuffix e.name envSuffix with
      | true => simp [collectPaths, hd, hs, List.filter_cons, ih]
      | false => simp [collectPaths, hd, hs, List.filter_cons, ih]

theorem indexOf_lt_of_pair_sublist {x y : ServeEvent} :
    ∀ {l : List ServeEvent}, [x, y].Sublist l → l.Nodup →
      l.indexOf x < l.indexOf y := by
  intro l
  induction l with
  | nil =>
    intro h _
    simp [List.sublist_nil] at h
  | cons a l ih =>
    intro h hnd
    cases h with
    | cons _ h2 =>
      have hx : x ∈ l := h2.subset (by simp)
      have hy : y ∈ l := h2.subset (by simp)
      have hax : a ≠ x := by
        rintro rfl
        exact (List.nodup_cons.mp hnd).1 hx
      have hay : a ≠ y := by
        rintro rfl
        exact (List.nodup_cons.mp hnd).1 hy
      rw [List.indexOf_cons_ne _ hax, List.indexOf_cons_ne _ hay]
      have := ih h2 (List.nodup_cons.mp hnd).2
      omega
    | cons₂ _ h2 =>
      have hy : y ∈ l := h2.subset (by simp)
      have hay : x ≠ y := by
        rintro rfl
        exact (List.nodup_cons.mp hnd).1 hy
      rw [List.indexOf_cons_self, List.indexOf_cons_ne _ hay]
      omega

/-!
Claim theorems.
-/

/-- C1: over any input sequence whose wall-clock times are monotone, the
`Watch` loop makes reload attempts whose start times are pairwise separated
by at least `reloadIval` (successive attempt times `a, b` satisfy
`a + reloadIval ≤ b`), so any half-open window of length `reloadIval`
contains at most one attempt: each attempt requires `lastUpdate` to be set
and aged at least `reloadIval`, and `lastUpdate` is cleared before the
attempt. -/
theorem watch_debounce (rl : Reloader) (inputs : List WatchInput) (lu : Int)
    (hmono : timesMono inputs) (hpos : 0 < rl.reloadIval) :
    List.Chain' (fun a b => a + rl.reloadIval ≤ b) (rl.attemptTimes lu inputs) ∧
      ∀ w : Int,
        (rl.attemptTimes lu inputs).countP
          (fun t => decide (w ≤ t ∧ t < w + rl.reloadIval)) ≤ 1 := by
  have hch := watch_attempts_chain rl inputs lu hmono
  exact ⟨hch, fun w =>
    chain_sep_window_count rl.reloadIval hpos (rl.attemptTimes lu inputs) hch w⟩

/-- Witness for C1: a concrete monotone run (change at 5s, due ticks at 20s
and 32s, a not-yet-due tick at 25s) makes exactly two attempts, 12s
apart. -/
theorem watch_debounce_witness :
    sampleRl.attemptTimes 0 sampleInputs = [20 * timeSecond, 32 * timeSecond] ∧
      List.Chain' (fun a b => a + sampleRl.reloadIval ≤ b)
        (sampleRl.attemptTimes 0 sampleInputs) := by
  have hsorted : List.Chain' (fun a b : Int => a ≤ b)
      (sampleInputs.filterMap WatchInput.time) :=
    List.Chain.cons (by decide) (List.Chain.cons (by decide)
      (List.Chain.cons (by decide) (List.Chain.cons (by decide) List.Chain.nil)))
  have hmono : timesMono sampleInputs := timesMono_of_sorted sampleInputs hsorted
  exact ⟨by decide, (watch_debounce sampleRl sampleInputs 0 hmono (by decide)).1⟩

/-- C2: `reloadCheckAt` is a pure function of its two time arguments; it
returns true exactly when `lastUpdate` is set (non-zero) and
`reloadIval ≤ t - lastUpdate`; in particular it returns false for every
`t` when `lastUpdate` is unset, and false while `t - lastUpdate` is
strictly below `reloadIval`. -/
theorem reloadCheckAt_correct (rl : Reloader) (t lu : Int) :
    (rl.reloadCheckAt t lu = true ↔ lu ≠ 0 ∧ rl.reloadIval ≤ t - lu) ∧
      rl.reloadCheckAt t 0 = false :=
  ⟨reloadCheckAt_iff rl t lu, by simp [Reloader.reloadCheckAt]⟩

/-- C3: when a reload is due at a tick, the iteration attempts the reload
and leaves `lastUpdate` at the unset (zero) value whatever the reload
returns — the reset happens before the attempt, so a failing loader leaves
no stale pending marker — and from the unset state no later tick attempts
a reload until a qualifying event sets `lastUpdate` again. -/
theorem watch_reset_before_reload (rl : Reloader) (lu now : Int)
    (dir : Except GoError (List DirEntry))
    (loader : List GoStr → Except GoError GlobalConfiguration)
    (hdue : rl.reloadCheckAt now lu = true) :
    (rl.watchStep lu (.tick now dir loader)).reloadAttempted = true ∧
    (rl.watchStep lu (.tick now dir loader)).lastUpdate = 0 ∧
    (rl.watchStep lu (.tick now dir loader)).returned = none ∧
    ∀ now2 dir2 loader2,
      (rl.watchStep 0 (.tick now2 dir2 loader2)).reloadAttempted = false := by
  refine ⟨?_, ?_, ?_, ?_⟩
  · rw [watchStep_tick_attempted]
    exact hdue
  · rw [watchStep_tick_lastUpdate, if_pos hdue]
  · exact watchStep_tick_returned rl lu now dir loader
  · intro now2 dir2 loader2
    rw [watchStep_tick_attempted]
    simp [Reloader.reloadCheckAt]

/-- Witness for C3: a due tick at 20s (pending change from 5s) with a
failing loader still attempts and resets `lastUpdate` to the zero value. -/
theorem watch_reset_before_reload_witness :
    (sampleRl.watchStep (5 * timeSecond)
        (.tick (20 * timeSecond) (.ok [sampleEnt]) sampleFailLoader)).lastUpdate = 0 ∧
      (sampleRl.watchStep (5 * timeSecond)
          (.tick (20 * timeSecond) (.ok [sampleEnt]) sampleFailLoader)).reloadAttempted
        = true := by
  have h := watch_reset_before_reload sampleRl (5 * timeSecond) (20 * timeSecond)
    (.ok [sampleEnt]) sampleFailLoader (by decide)
  exact ⟨h.2.1, h.1⟩

/-- C4: a filesystem event leaves `lastUpdate` unchanged unless its name
ends in `.env` and its operation includes create, remove, rename or write,
in which case `lastUpdate` becomes the event's time (overwriting whatever
was pending, which is the coalescing behaviour); an event never attempts a
reload, never invokes the callback and never terminates the loop. -/
theorem watch_fsEvent_coalesce (rl : Reloader) (lu : Int) (evt : FsnotifyEvent)
    (now : Int) :
    (rl.watchStep lu (.fsEvent evt now)).lastUpdate =
      (if envSuffix <:+ evt.name ∧
          (opHas evt.op fsnotifyCreate = true ∨ opHas evt.op fsnotifyRemove = true ∨
            opHas evt.op fsnotifyRename = true ∨ opHas evt.op fsnotifyWrite = true) then
        now
      else lu) ∧
    (rl.watchStep lu (.fsEvent evt now)).reloadAttempted = false ∧
    (rl.watchStep lu (.fsEvent evt now)).callbackCfg = none ∧
    (rl.watchStep lu (.fsEvent evt now)).returned = none := by
  refine ⟨?_, watchStep_fsEvent_attempted rl lu evt now,
    watchStep_fsEvent_callbackCfg rl lu evt now, watchStep_fsEvent_returned rl lu evt now⟩
  rw [watchStep_fsEvent_lastUpdate]
  refine if_congr ?_ rfl rfl
  simp only [stringsHasSuffix, Bool.and_eq_true, Bool.or_eq_true,
    List.isSuffixOf_iff_suffix]
  tauto

/-- C5: a reload attempt reads the watch directory's entries sorted by
filename, drops subdirectories and every name not ending in `.env`, keeps
the survivors in that filename-sorted order, prefixes each with the watch
directory path, and invokes the external loader with exactly that ordered
path list. -/
theorem reloadConfig_paths (rl : Reloader) (ents : List DirEntry)
    (loader : List GoStr → Except GoError GlobalConfiguration) :
    ∃ sorted : List DirEntry,
      sorted.Perm ents ∧
        List.Sorted (fun a b : DirEntry => a.name ≤ b.name) sorted ∧
        List.Sorted (fun a b : GoStr => a ≤ b)
          ((sorted.filter fun e => !e.isDir && stringsHasSuffix e.name envSuffix).map
            DirEntry.name) ∧
        rl.reloadConfig (.ok ents) loader =
          loader
            ((sorted.filter fun e => !e.isDir && stringsHasSuffix e.name envSuffix).map
              fun e => filepathJoin rl.watchDir e.name) := by
  refine ⟨List.insertionSort (fun a b : DirEntry => a.name ≤ b.name) ents,
    List.perm_insertionSort _ ents, List.sorted_insertionSort _ ents, ?_, ?_⟩
  · have h := List.sorted_insertionSort (fun a b : DirEntry => a.name ≤ b.name) ents
    exact (h.filter _).map DirEntry.name fun a b hab => hab
  · simp only [Reloader.reloadConfig, osReadDir]
    rw [collectPaths_eq]

/-- C6: if the loader fails during a due reload attempt, the callback is
not invoked for that attempt and the loop continues; after a new
qualifying event at a non-zero time and a tick past the debounce window
with a succeeding loader, a reload happens and the callback receives the
fresh configuration. -/
theorem watch_loader_failure_recovers (rl : Reloader) (lu now : Int)
    (dir : Except GoError (List DirEntry))
    (loader : List GoStr → Except GoError GlobalConfiguration) (e : GoError)
    (hdue : rl.reloadCheckAt now lu = true)
    (hfail : rl.reloadConfig dir loader = .error e) :
    (rl.watchStep lu (.tick now dir loader)).reloadAttempted = true ∧
    (rl.watchStep lu (.tick now dir loader)).callbackCfg = none ∧
    (rl.watchStep lu (.tick now dir loader)).returned = none ∧
    ∀ (evt : FsnotifyEvent) (tE t2 : Int)
      (dir2 : Except GoError (List DirEntry))
      (loader2 : List GoStr → Except GoError GlobalConfiguration)
      (cfg : GlobalConfiguration),
      stringsHasSuffix evt.name envSuffix = true →
      opHas evt.op fsnotifyWrite = true →
      tE ≠ 0 →
      rl.reloadIval ≤ t2 - tE →
      rl.reloadConfig dir2 loader2 = .ok cfg →
      (rl.watchStep
          ((rl.watchStep ((rl.watchStep lu (.tick now dir loader)).lastUpdate)
              (.fsEvent evt tE)).lastUpdate)
          (.tick t2 dir2 loader2)).callbackCfg = some cfg := by
  refine ⟨?_, ?_, watchStep_tick_returned rl lu now dir loader, ?_⟩
  · rw [watchStep_tick_attempted]
    exact hdue
  · rw [watchStep_tick_callbackCfg, if_pos hdue, hfail]
    rfl
  · intro evt tE t2 dir2 loader2 cfg hsuf hop htE hwin hok
    have h1 : (rl.watchStep lu (.tick now dir loader)).lastUpdate = 0 := by
      rw [watchStep_tick_lastUpdate, if_pos hdue]
    have h2 : (rl.watchStep 0 (.fsEvent evt tE)).lastUpdate = tE := by
      rw [watchStep_fsEvent_lastUpdate, hsuf, hop]
      simp
    have h3 : rl.reloadCheckAt t2 tE = true := (reloadCheckAt_iff rl t2 tE).mpr ⟨htE, hwin⟩
    rw [h1, h2, watchStep_tick_callbackCfg, if_pos h3, hok]
    rfl

/-- Witness for C6: a due tick at 20s with a failing loader invokes no
callback; after a write event at 21s, the due tick at 32s with a working
loader hands the callback the configuration built from the one path. -/
theorem watch_loader_failure_recovers_witness :
    (sampleRl.watchStep (5 * timeSecond)
        (.tick (20 * timeSecond) (.ok [sampleEnt]) sampleFailLoader)).callbackCfg = none ∧
      (sampleRl.watchStep
          ((sampleRl.watchStep
              ((sampleRl.watchStep (5 * timeSecond)
                  (.tick (20 * timeSecond) (.ok [sampleEnt]) sampleFailLoader)).lastUpdate)
              (.fsEvent sampleWriteEvt (21 * timeSecond))).lastUpdate)
          (.tick (32 * timeSecond) (.ok [sampleEnt]) sampleLoader)).callbackCfg
        = some ⟨1⟩ := by
  have h := watch_loader_failure_recovers sampleRl (5 * timeSecond) (20 * timeSecond)
    (.ok [sampleEnt]) sampleFailLoader (.ioError 7) (by decide) rfl
  exact ⟨h.2.1, h.2.2.2 sampleWriteEvt (21 * timeSecond) (32 * timeSecond)
    (.ok [sampleEnt]) sampleLoader ⟨1⟩ (by decide) (by decide) (by decide) (by decide)
    rfl⟩

/-- C7: the watcher events channel closing makes `Watch` return the nil
result — an ordinary termination — which is distinguishable from
cancellation, where `Watch` returns the context's non-nil error; an error
value delivered on the watcher error channel neither terminates the loop
nor changes its state. -/
theorem watch_close_vs_cancel (rl : Reloader) (lu : Int) (e : GoError) :
    (rl.watchStep lu .fsEventsClosed).returned = some none ∧
    (rl.watchStep lu (.ctxDone e)).returned = some (some e) ∧
    some (some e) ≠ (some none : Option (Option GoError)) ∧
    (rl.watchStep lu (.fsError e)).returned = none ∧
    (rl.watchStep lu (.fsError e)).lastUpdate = lu :=
  ⟨rfl, rfl, by simp, rfl, rfl⟩

/-- C8: the graceful-shutdown wait is bounded by the fixed one-minute
(60-second) timeout handed to the shutdown call, and a shutdown error is
logged exactly when it is not the expected `context.Canceled`; whatever
the shutdown result, the coordinator runs to completion and cancels the
base context, so the shutdown path always proceeds. -/
theorem serve_shutdown_bounded :
    serveShutdownTimeout = 60 * timeSecond ∧
      (∀ res : Option GoError, (shutdownGoroutine res).completed = true ∧
        (shutdownGoroutine res).baseCancelInvoked = true) ∧
      (∀ e : GoError, (shutdownGoroutine (some e)).loggedShutdownError =
        !errorsIs e GoError.canceled) ∧
      (shutdownGoroutine (some GoError.canceled)).loggedShutdownError = false :=
  ⟨rfl, fun _ => ⟨rfl, rfl⟩, fun _ => rfl, rfl⟩

/-- C9: in every valid execution of `serve`'s two concurrent tasks (both
tasks' orders preserved, all events occurring exactly once, and `wg.Wait`
returning only after the goroutine's `wg.Done`), every event of the
shutdown-coordinator goroutine — observing cancellation, running the
bounded shutdown, cancelling the derived base context — happens strictly
before `serve` returns, so a returned `serve` implies no further request
processing will occur. -/
theorem serve_returns_after_shutdown (tr : List ServeEvent)
    (hv : serveTraceValid tr) (hs : wgWaitSync tr) :
    ∀ e ∈ shutdownGoroutineTrace,
      tr.indexOf e < tr.indexOf ServeEvent.serveReturned := by
  obtain ⟨hperm, hg, hm⟩ := hv
  have hnd : tr.Nodup := hperm.nodup_iff.mpr (by decide)
  have hwait : tr.indexOf ServeEvent.wgWaitReturned < tr.indexOf ServeEvent.serveReturned :=
    indexOf_lt_of_pair_sublist hm hnd
  have hs2 : tr.indexOf ServeEvent.wgDoneInvoked < tr.indexOf ServeEvent.wgWaitReturned := hs
  intro e he
  have key : ∀ x : ServeEvent,
      ([x, ServeEvent.wgDoneInvoked] : List ServeEvent).Sublist shutdownGoroutineTrace →
      tr.indexOf x < tr.indexOf ServeEvent.serveReturned := by
    intro x hx
    have hlt : tr.indexOf x < tr.indexOf ServeEvent.wgDoneInvoked :=
      indexOf_lt_of_pair_sublist (hx.trans hg) hnd
    omega
  fin_cases he
  · exact key _ (by decide)
  · exact key _ (by decide)
  · exact key _ (by decide)
  · exact key _ (by decide)
  · omega

/-- Witness for C9: the fully sequential trace (goroutine first, then the
main task's tail) is valid and satisfies the conclusion. -/
theorem serve_returns_after_shutdown_witness :
    serveTraceValid sampleServeTrace ∧ wgWaitSync sampleServeTrace ∧
      ∀ e ∈ shutdownGoroutineTrace,
        sampleServeTrace.indexOf e < sampleServeTrace.indexOf ServeEvent.serveReturned := by
  have hv : serveTraceValid sampleServeTrace := ⟨by decide, by decide, by decide⟩
  have hs : wgWaitSync sampleServeTrace := by
    unfold wgWaitSync
    decide
  exact ⟨hv, hs, serve_returns_after_shutdown sampleServeTrace hv hs⟩

/-- C10: if reading the watch directory fails when a due reload fires, the
attempt returns the read error without consulting the loader (the result
is the same for every loader), the callback is not invoked, the loop
continues, and `lastUpdate` — reset before the attempt — stays unset, so
no tick retries the reload until a new qualifying event arrives. -/
theorem watch_readDir_failure (rl : Reloader) (lu now : Int) (e : GoError)
    (loader : List GoStr → Except GoError GlobalConfiguration)
    (hdue : rl.reloadCheckAt now lu = true) :
    rl.reloadConfig (.error e) loader = .error e ∧
    (rl.watchStep lu (.tick now (.error e) loader)).reloadAttempted = true ∧
    (rl.watchStep lu (.tick now (.error e) loader)).callbackCfg = none ∧
    (rl.watchStep lu (.tick now (.error e) loader)).returned = none ∧
    (rl.watchStep lu (.tick now (.error e) loader)).lastUpdate = 0 ∧
    ∀ now2 dir2 loader2,
      (rl.watchStep 0 (.tick now2 dir2 loader2)).reloadAttempted = false := by
  refine ⟨rfl, ?_, ?_, watchStep_tick_returned rl lu now (.error e) loader, ?_, ?_⟩
  · rw [watchStep_tick_attempted]
    exact hdue
  · rw [watchStep_tick_callbackCfg, if_pos hdue]
    rfl
  · rw [watchStep_tick_lastUpdate, if_pos hdue]
  · intro now2 dir2 loader2
    rw [watchStep_tick_attempted]
    simp [Reloader.reloadCheckAt]

/-- Witness for C10: a due tick at 20s whose directory read fails leaves
no callback, a continuing loop and an unset `lastUpdate`. -/
theorem watch_readDir_failure_witness :
    sampleRl.reloadConfig (.error (.ioError 2)) sampleLoader = .error (.ioError 2) ∧
      (sampleRl.watchStep (5 * timeSecond)
          (.tick (20 * timeSecond) (.error (.ioError 2)) sampleLoader)).callbackCfg = none ∧
      (sampleRl.watchStep (5 * timeSecond)
          (.tick (20 * timeSecond) (.error (.ioError 2)) sampleLoader)).lastUpdate = 0 := by
  have h := watch_readDir_failure sampleRl (5 * timeSecond) (20 * timeSecond)
    (.ioError 2) sampleLoader (by decide)
  exact ⟨h.1, h.2.2.1, h.2.2.2.2.1⟩
